import Mathlib

/-!
Shallow embedding of the duckdns updater (src/main.go).

The program merges a token and a list of subdomain names from three
sources (CLI flags, environment variables, a YAML file) with strict
precedence, then issues one HTTP GET per name against the DuckDNS
update endpoint, collecting per-name failures.

External effects are modelled by explicit oracles:
  * the environment is a pair of strings (values of DUCK_TOKEN and
    DUCK_NAMES, empty when unset — `env.String` with fallback "");
  * the config file is a `FileResult` (read error, YAML parse error, or
    the parsed `Update` value);
  * the network is a function from the sequence number of the GET to a
    `GetResult` (transport error, body-read error, or the body string).
-/

/-- `Update` contains everything that DuckDNS will need to update a record
(struct `Update` in main.go: yaml keys `token` and `domains`). -/
structure Update where
  Token : String
  Names : List String
deriving DecidableEq, Repr

/-- `CLIOptions` are the flag values parsed by pflag in `main`. -/
structure CLIOptions where
  Debug : Bool
  File : String
  Token : String
  Names : List String
deriving DecidableEq, Repr

/-- `Valid` (main.go:32-37): a request is valid iff the names list is
non-empty and the token is non-empty. -/
def Update.Valid (u : Update) : Bool :=
  if u.Names.length > 0 ∧ u.Token ≠ "" then true else false

/-- `getConfigCLI` (main.go:41-50): copies token and names from the CLI
options into a fresh `Update`. -/
def getConfigCLI (c : CLIOptions) : Update :=
  { Token := c.Token, Names := c.Names }

/-- The environment, restricted to the two variables the program reads.
Each field holds what `env.String(key, "")` returns: the variable's value,
or `""` when it is unset. -/
structure EnvVars where
  DUCK_TOKEN : String
  DUCK_NAMES : String
deriving DecidableEq, Repr

/-- `strings.Split(s, " ")` on the underlying character list: splits at
every space, keeping empty fields; the empty input gives `[[]]`. -/
def splitSpace : List Char → List (List Char)
  | [] => [[]]
  | c :: cs =>
    let r := splitSpace cs
    if c = ' ' then [] :: r
    else
      match r with
      | s :: ss => (c :: s) :: ss
      | [] => [[c]]

/-- `strings.Split(s, " ")` as used at main.go:98. -/
def goSplitSpace (s : String) : List String :=
  (splitSpace s.data).map String.mk

/-- `getConfigEnv` (main.go:86-103): fills the token when it is still empty,
and fills the names (splitting DUCK_NAMES on spaces) when they are still
empty and DUCK_NAMES is non-empty. -/
def getConfigEnv (e : EnvVars) (u : Update) : Update :=
  let token := e.DUCK_TOKEN
  let name := e.DUCK_NAMES
  let u1 := if u.Token = "" then { u with Token := token } else u
  if u1.Names.length = 0 ∧ name ≠ "" then { u1 with Names := goSplitSpace name }
  else u1

/-- Outcome of `ioutil.ReadFile` followed by `yaml.Unmarshal` at
main.go:57-66: the read can fail, the parse can fail, or an `Update`
value is produced. -/
inductive FileResult where
  | readErr
  | parseErr
  | parsed (u : Update)
deriving DecidableEq, Repr

/-- `getConfigFile` (main.go:53-82): on a read or parse error the existing
request is returned unchanged; otherwise the token and the names from the
file fill the corresponding field only when the file's value is non-empty
and the existing field is still empty. -/
def getConfigFile (existing : Update) (fr : FileResult) : Update :=
  match fr with
  | .readErr => existing
  | .parseErr => existing
  | .parsed update =>
    let e1 :=
      if update.Token = "" then existing
      else if existing.Token = "" then { existing with Token := update.Token }
      else existing
    if update.Names.length = 0 then e1
    else if e1.Names.length = 0 then { e1 with Names := update.Names }
    else e1

/-- The configuration-resolution part of `main` (main.go:171-181), with a
trace: the returned booleans record whether `getConfigEnv` and
`getConfigFile` were called. -/
def resolveConfigT (cli : CLIOptions) (e : EnvVars) (fr : FileResult) :
    Update × Bool × Bool :=
  let update := getConfigCLI cli
  if update.Valid then (update, false, false)
  else
    let update := getConfigEnv e update
    if update.Valid then (update, true, false)
    else (getConfigFile update fr, true, true)

/-- Result of one `http.Get` plus body read (main.go:120-133). -/
inductive GetResult where
  | getErr (msg : String)
  | readErr (msg : String)
  | body (s : String)
deriving DecidableEq, Repr

/-- `strings.Contains(s, sub)`: substring containment over the character
lists. -/
def strContains (s sub : String) : Bool :=
  decide (sub.data <:+: s.data)

/-- The URL built at main.go:112-118:
`fmt.Sprintf("%s%s%s%s%s", stub, v, tokenStub, update.Token, ipStub)`. -/
def updateURL (token v : String) : String :=
  "https://www.duckdns.org/update?domains=" ++ v ++ "&token=" ++ token ++ "&ip="

/-- The per-name outcome of the loop body (main.go:120-138): a transport
error or a body-read error records its message; a body containing "KO"
records `Error updating <v> with DuckDNS`; any other body records
nothing. -/
def nameOutcome (v : String) (r : GetResult) : Option String :=
  match r with
  | .getErr m => some m
  | .readErr m => some m
  | .body bodyBytes =>
    if strContains bodyBytes "KO" then
      some ("Error updating " ++ v ++ " with DuckDNS")
    else none

/-- The loop of `makeUpdate` (main.go:116-142): returns the list of URLs
requested (one GET per name, in order) and the list of recorded error
messages. `i` is the sequence number fed to the network oracle. -/
def updateLoop (token : String) (net : Nat → GetResult) :
    List String → Nat → List String × List String
  | [], _ => ([], [])
  | v :: vs, i =>
    let url := updateURL token v
    let rest := updateLoop token net vs (i + 1)
    match nameOutcome v (net i) with
    | some e => (url :: rest.1, e :: rest.2)
    | none => (url :: rest.1, rest.2)

/-- Result of `makeUpdate`: the program exits when the request is invalid,
otherwise it returns an aggregate error or succeeds. -/
inductive RunResult where
  | exitInvalid
  | ok
  | err (msg : String)
deriving DecidableEq, Repr

/-- `makeUpdate` (main.go:105-149), paired with the trace of requested
URLs: checks validity, runs the loop over all names, and joins the
recorded error messages with newlines when any exist. -/
def makeUpdate (net : Nat → GetResult) (update : Update) :
    RunResult × List String :=
  if !update.Valid then (.exitInvalid, [])
  else
    let r := updateLoop update.Token net update.Names 0
    if r.2.length ≠ 0 then (.err (String.intercalate "\n" r.2), r.1)
    else (.ok, r.1)

/-- A network oracle for the spec's three-name example: the second GET
(sequence number 1) answers "OK", the other two answer "KO". -/
def netTwoOfThreeFail : Nat → GetResult := fun i =>
  if i = 1 then .body "OK" else .body "KO"

/-! ## Helper lemmas -/

theorem splitSpace_ne_nil (l : List Char) : splitSpace l ≠ [] := by
  induction l with
  | nil => simp [splitSpace]
  | cons c cs ih =>
    simp only [splitSpace]
    split
    · simp
    · cases h : splitSpace cs with
      | nil => exact absurd h ih
      | cons s ss => simp [h]

theorem getConfigEnv_Names_of_empty (e : EnvVars) (u : Update)
    (hN : u.Names = []) (hE : e.DUCK_NAMES ≠ "") :
    (getConfigEnv e u).Names = goSplitSpace e.DUCK_NAMES := by
  obtain ⟨t, ns⟩ := u
  simp only at hN
  subst hN
  unfold getConfigEnv
  by_cases ht : t = "" <;> simp [ht, hE]

theorem getConfigEnv_Token_of_ne (e : EnvVars) (u : Update)
    (hT : u.Token ≠ "") : (getConfigEnv e u).Token = u.Token := by
  obtain ⟨t, ns⟩ := u
  simp only at hT
  unfold getConfigEnv
  simp [hT]
  split <;> rfl

theorem getConfigEnv_Names_of_ne (e : EnvVars) (u : Update)
    (hN : u.Names ≠ []) : (getConfigEnv e u).Names = u.Names := by
  obtain ⟨t, ns⟩ := u
  simp only at hN
  unfold getConfigEnv
  by_cases ht : t = "" <;> simp [ht, List.length_eq_zero, hN]

theorem getConfigFile_Token_of_ne (fr : FileResult) (u : Update)
    (hT : u.Token ≠ "") : (getConfigFile u fr).Token = u.Token := by
  cases fr with
  | readErr => rfl
  | parseErr => rfl
  | parsed v =>
    obtain ⟨t, ns⟩ := u
    simp only at hT
    unfold getConfigFile
    by_cases h1 : v.Token = "" <;> by_cases h2 : v.Names.length = 0 <;>
      by_cases h3 : (ns : List String).length = 0 <;> simp [h1, h2, h3, hT]

theorem getConfigFile_Names_of_ne (fr : FileResult) (u : Update)
    (hN : u.Names ≠ []) : (getConfigFile u fr).Names = u.Names := by
  cases fr with
  | readErr => rfl
  | parseErr => rfl
  | parsed v =>
    obtain ⟨t, ns⟩ := u
    simp only at hN
    unfold getConfigFile
    by_cases h1 : v.Token = "" <;> by_cases h2 : v.Names.length = 0 <;>
      by_cases ht : t = "" <;> simp [h1, h2, ht, List.length_eq_zero, hN]

theorem valid_of_parts {u : Update} (hT : u.Token ≠ "") (hN : u.Names ≠ []) :
    u.Valid = true := by
  unfold Update.Valid
  rw [if_pos ⟨List.length_pos.mpr hN, hT⟩]

/-- C1: with a non-empty CLI token and non-empty CLI names list, the
resolved request is exactly the CLI-supplied token and names, and neither
the environment reader nor the file reader is consulted (trace booleans
both false), for every environment and every file-read outcome. -/
theorem cli_config_shadows_env_and_file (cli : CLIOptions) (e : EnvVars)
    (fr : FileResult) (hT : cli.Token ≠ "") (hN : cli.Names ≠ []) :
    resolveConfigT cli e fr =
      ({ Token := cli.Token, Names := cli.Names }, false, false) := by
  have hv : (getConfigCLI cli).Valid = true := valid_of_parts hT hN
  simp [resolveConfigT, hv]
  rfl

/-- Witness for C1 at a concrete CLI/environment/file instance. -/
theorem cli_config_shadows_env_and_file_witness :
    resolveConfigT ⟨false, "duckdns.yaml", "tok", ["a"]⟩ ⟨"envtok", "x y"⟩
      (.parsed ⟨"filetok", ["z"]⟩) =
      ({ Token := "tok", Names := ["a"] }, false, false) :=
  cli_config_shadows_env_and_file _ _ _ (by decide) (by decide)

/-- C2: neither merge step overwrites a field already set by a
higher-priority source (non-empty token stays, non-empty names stay, for
both the environment overlay and the file overlay), and merging stops as
soon as the request is valid: a valid CLI request short-circuits both
readers, and validity after the environment step short-circuits the file
reader. -/
theorem merge_never_overwrites (u : Update) (e : EnvVars) (fr : FileResult)
    (cli : CLIOptions) :
    (u.Token ≠ "" →
      (getConfigEnv e u).Token = u.Token ∧ (getConfigFile u fr).Token = u.Token) ∧
    (u.Names ≠ [] →
      (getConfigEnv e u).Names = u.Names ∧ (getConfigFile u fr).Names = u.Names) ∧
    ((getConfigCLI cli).Valid = true →
      resolveConfigT cli e fr = (getConfigCLI cli, false, false)) ∧
    ((getConfigEnv e (getConfigCLI cli)).Valid = true →
      (resolveConfigT cli e fr).2.2 = false) := by
  refine ⟨fun hT => ⟨getConfigEnv_Token_of_ne e u hT, getConfigFile_Token_of_ne fr u hT⟩,
    fun hN => ⟨getConfigEnv_Names_of_ne e u hN, getConfigFile_Names_of_ne fr u hN⟩,
    fun hV => ?_, fun hV => ?_⟩
  · simp [resolveConfigT, hV]
  · by_cases hc : (getConfigCLI cli).Valid = true <;>
      simp [resolveConfigT, hc, hV]

/-- Witness for C2 at a concrete request, environment, file and CLI. -/
theorem merge_never_overwrites_witness :
    ((getConfigEnv ⟨"et", "e1 e2"⟩ ⟨"t", ["a"]⟩).Token = "t" ∧
      (getConfigFile ⟨"t", ["a"]⟩ (.parsed ⟨"ft", ["z"]⟩)).Token = "t") ∧
    ((getConfigEnv ⟨"et", "e1 e2"⟩ ⟨"t", ["a"]⟩).Names = ["a"] ∧
      (getConfigFile ⟨"t", ["a"]⟩ (.parsed ⟨"ft", ["z"]⟩)).Names = ["a"]) ∧
    resolveConfigT ⟨false, "f", "t", ["a"]⟩ ⟨"et", "e1 e2"⟩
      (.parsed ⟨"ft", ["z"]⟩) = (getConfigCLI ⟨false, "f", "t", ["a"]⟩, false, false) ∧
    (resolveConfigT ⟨false, "f", "t", ["a"]⟩ ⟨"et", "e1 e2"⟩
      (.parsed ⟨"ft", ["z"]⟩)).2.2 = false := by
  have h := merge_never_overwrites ⟨"t", ["a"]⟩ ⟨"et", "e1 e2"⟩
    (.parsed ⟨"ft", ["z"]⟩) ⟨false, "f", "t", ["a"]⟩
  exact ⟨h.1 (by decide), h.2.1 (by decide), h.2.2.1 (by decide), h.2.2.2 (by decide)⟩

/-- C7: a file-read error or a YAML parse error leaves the request exactly
unchanged, and in particular when the CLI and the environment provided
nothing the resolved request is still empty (both readers having been
consulted). -/
theorem file_error_leaves_request_unchanged (u : Update) :
    getConfigFile u .readErr = u ∧
    getConfigFile u .parseErr = u ∧
    resolveConfigT ⟨false, "duckdns.yaml", "", []⟩ ⟨"", ""⟩ .readErr =
      ({ Token := "", Names := [] }, true, true) ∧
    resolveConfigT ⟨false, "duckdns.yaml", "", []⟩ ⟨"", ""⟩ .parseErr =
      ({ Token := "", Names := [] }, true, true) :=
  ⟨rfl, rfl, by decide, by decide⟩

/-- C8: with an empty names list and DUCK_NAMES set to "a b c", the
environment reader sets the names to exactly ["a", "b", "c"]. -/
theorem env_names_split_on_space (u : Update) (e : EnvVars)
    (hN : u.Names = []) (hE : e.DUCK_NAMES = "a b c") :
    (getConfigEnv e u).Names = ["a", "b", "c"] := by
  rw [getConfigEnv_Names_of_empty e u hN (by rw [hE]; decide), hE]
  decide

/-- Witness for C8 at a concrete request and environment. -/
theorem env_names_split_on_space_witness :
    (getConfigEnv ⟨"et", "a b c"⟩ ⟨"t", []⟩).Names = ["a", "b", "c"] :=
  env_names_split_on_space ⟨"t", []⟩ ⟨"et", "a b c"⟩ rfl rfl

theorem updateLoop_urls (token : String) (net : Nat → GetResult)
    (names : List String) (i : Nat) :
    (updateLoop token net names i).1 = names.map (updateURL token) := by
  induction names generalizing i with
  | nil => rfl
  | cons v vs ih =>
    unfold updateLoop
    cases nameOutcome v (net i) <;> simp [ih]

theorem makeUpdate_urls (net : Nat → GetResult) (u : Update)
    (hV : u.Valid = true) :
    (makeUpdate net u).2 = u.Names.map (updateURL u.Token) := by
  unfold makeUpdate
  rw [hV]
  simp only [Bool.not_true, Bool.false_eq_true, if_false]
  split <;> simp [updateLoop_urls]

theorem splitSpace_tail_step (c : Char) (cs : List Char)
    (h : [] ∈ (splitSpace cs).tail) : [] ∈ (splitSpace (c :: cs)).tail := by
  unfold splitSpace
  by_cases hc : c = ' '
  · simpa [hc] using List.mem_of_mem_tail h
  · cases hs : splitSpace cs with
    | nil => exact absurd hs (splitSpace_ne_nil cs)
    | cons s ss =>
      rw [hs] at h
      simpa [hc, hs] using h

theorem splitSpace_tail_trailing (cs : List Char)
    (h : cs.getLast? = some ' ') : [] ∈ (splitSpace cs).tail := by
  induction cs with
  | nil => simp at h
  | cons c cs ih =>
    cases cs with
    | nil =>
      simp at h
      subst h
      decide
    | cons d ds =>
      exact splitSpace_tail_step c _ (ih (by simpa using h))

theorem splitSpace_tail_double (pre suf : List Char) :
    [] ∈ (splitSpace (pre ++ ' ' :: ' ' :: suf)).tail := by
  induction pre with
  | nil => simp [splitSpace]
  | cons c cs ih => exact splitSpace_tail_step c _ ih

theorem empty_mem_splitSpace (l : List Char)
    (hsp : l.head? = some ' ' ∨ l.getLast? = some ' ' ∨
      ∃ pre suf, l = pre ++ ' ' :: ' ' :: suf) :
    [] ∈ splitSpace l := by
  rcases hsp with h | h | ⟨pre, suf, rfl⟩
  · cases l with
    | nil => simp at h
    | cons c cs =>
      simp at h
      subst h
      simp [splitSpace]
  · exact List.mem_of_mem_tail (splitSpace_tail_trailing l h)
  · exact List.mem_of_mem_tail (splitSpace_tail_double pre suf)

theorem empty_string_mem_goSplitSpace (s : String)
    (hsp : s.data.head? = some ' ' ∨ s.data.getLast? = some ' ' ∨
      ∃ pre suf, s.data = pre ++ ' ' :: ' ' :: suf) :
    "" ∈ goSplitSpace s := by
  unfold goSplitSpace
  exact List.mem_map.mpr ⟨[], empty_mem_splitSpace s.data hsp, rfl⟩

/-- C3: for a valid request the dispatcher issues, for each name n in
order, a GET whose URL is exactly the plain concatenation
"https://www.duckdns.org/update?domains=" ++ n ++ "&token=" ++ token ++
"&ip=", with no escaping and no other query parameters. -/
theorem dispatcher_url_exact (u : Update) (net : Nat → GetResult)
    (hV : u.Valid = true) :
    (makeUpdate net u).2 = u.Names.map (fun n =>
      "https://www.duckdns.org/update?domains=" ++ n ++ "&token=" ++
        u.Token ++ "&ip=") :=
  makeUpdate_urls net u hV

/-- Witness for C3 at a concrete request and network oracle. -/
theorem dispatcher_url_exact_witness :
    (makeUpdate (fun _ => GetResult.body "OK") ⟨"t", ["a"]⟩).2 =
      ["https://www.duckdns.org/update?domains=a&token=t&ip="] := by
  have h := dispatcher_url_exact ⟨"t", ["a"]⟩ (fun _ => GetResult.body "OK")
    (by decide)
  exact h.trans (by decide)

/-- C4: a response body "OK" for name x records no error; a body
containing the substring "KO" records the message
"Error updating x with DuckDNS", which mentions x; the KO test is exactly
substring containment over the full body. -/
theorem response_ko_detection (x s : String) :
    nameOutcome x (.body "OK") = none ∧
    (strContains s "KO" = true →
      nameOutcome x (.body s) =
        some ("Error updating " ++ x ++ " with DuckDNS") ∧
      strContains ("Error updating " ++ x ++ " with DuckDNS") x = true) ∧
    nameOutcome x (.body s) =
      (if strContains s "KO" = true then
        some ("Error updating " ++ x ++ " with DuckDNS") else none) ∧
    (strContains s "KO" = true ↔ "KO".data <:+: s.data) := by
  refine ⟨?_, fun h => ⟨by simp [nameOutcome, h], ?_⟩, by simp [nameOutcome], ?_⟩
  · simp [nameOutcome, show strContains "OK" "KO" = false from by decide]
  · unfold strContains
    apply decide_eq_true
    exact ⟨("Error updating ").data, (" with DuckDNS").data, by
      simp [String.data_append]⟩
  · unfold strContains
    exact decide_eq_true_iff

/-- Witness for C4 at name "x" with bodies "OK" and "KO". -/
theorem response_ko_detection_witness :
    nameOutcome "x" (.body "OK") = none ∧
    nameOutcome "x" (.body "KO") =
      some ("Error updating " ++ "x" ++ " with DuckDNS") ∧
    strContains ("Error updating " ++ "x" ++ " with DuckDNS") "x" = true := by
  have h := response_ko_detection "x" "KO"
  exact ⟨h.1, (h.2.1 (by decide)).1, (h.2.1 (by decide)).2⟩

/-- C5: for a valid request the dispatcher returns one aggregate error
joining the recorded failure messages with newlines when any failure was
recorded, and no error otherwise; in the spec's example of three names
where exactly the first and third fail with "KO" bodies, the aggregate
message is the two per-name messages joined by one newline, so it has
exactly two lines. -/
theorem aggregate_error_join (u : Update) (net : Nat → GetResult)
    (hV : u.Valid = true) :
    (makeUpdate net u).1 =
      (if (updateLoop u.Token net u.Names 0).2 = [] then RunResult.ok
       else .err (String.intercalate "\n"
         (updateLoop u.Token net u.Names 0).2)) ∧
    (makeUpdate netTwoOfThreeFail ⟨"t", ["a", "b", "c"]⟩).1 =
      .err ("Error updating a with DuckDNS" ++ "\n" ++
        "Error updating c with DuckDNS") ∧
    ("Error updating a with DuckDNS" ++ "\n" ++
      "Error updating c with DuckDNS" : String).data.count '\n' = 1 := by
  refine ⟨?_, by decide, by decide⟩
  unfold makeUpdate
  rw [hV]
  simp only [Bool.not_true, Bool.false_eq_true, if_false]
  by_cases h : (updateLoop u.Token net u.Names 0).2 = [] <;>
    simp [h, List.length_eq_zero]

/-- Witness for C5 at the spec's concrete three-name example. -/
theorem aggregate_error_join_witness :
    (makeUpdate netTwoOfThreeFail ⟨"t", ["a", "b", "c"]⟩).1 =
      (if (updateLoop "t" netTwoOfThreeFail ["a", "b", "c"] 0).2 = [] then
        RunResult.ok
       else .err (String.intercalate "\n"
         (updateLoop "t" netTwoOfThreeFail ["a", "b", "c"] 0).2)) :=
  (aggregate_error_join ⟨"t", ["a", "b", "c"]⟩ netTwoOfThreeFail (by decide)).1

/-- C6: for a valid request the dispatcher makes exactly one attempt per
entry of the names list, in list order and without deduplication (the
i-th URL is built from the i-th name), and the set of attempts does not
depend on the network outcomes, so one name's failure never prevents the
remaining names from being attempted. -/
theorem one_attempt_per_name (u : Update) (net net2 : Nat → GetResult)
    (hV : u.Valid = true) :
    (makeUpdate net u).2.length = u.Names.length ∧
    (∀ i : Nat, ((makeUpdate net u).2)[i]? =
      (u.Names[i]?).map (updateURL u.Token)) ∧
    (makeUpdate net u).2 = (makeUpdate net2 u).2 := by
  have h1 := makeUpdate_urls net u hV
  have h2 := makeUpdate_urls net2 u hV
  exact ⟨by rw [h1]; simp, fun i => by rw [h1]; simp, by rw [h1, h2]⟩

/-- Witness for C6 at a duplicated name and two different network oracles
(one failing every GET, one succeeding). -/
theorem one_attempt_per_name_witness :
    (makeUpdate (fun _ => GetResult.body "KO") ⟨"t", ["a", "a"]⟩).2.length =
      (["a", "a"] : List String).length ∧
    ((makeUpdate (fun _ => GetResult.body "KO") ⟨"t", ["a", "a"]⟩).2)[1]? =
      ((["a", "a"] : List String)[1]?).map (updateURL "t") ∧
    (makeUpdate (fun _ => GetResult.body "KO") ⟨"t", ["a", "a"]⟩).2 =
      (makeUpdate (fun _ => GetResult.body "OK") ⟨"t", ["a", "a"]⟩).2 := by
  have h := one_attempt_per_name ⟨"t", ["a", "a"]⟩
    (fun _ => GetResult.body "KO") (fun _ => GetResult.body "OK") (by decide)
  exact ⟨h.1, h.2.1 1, h.2.2⟩

/-- C9: validity never inspects individual names: a request whose token is
non-empty and whose names list is [""] is valid, and the single GET it
produces has an empty domains query parameter. -/
theorem empty_name_still_valid (token : String) (net : Nat → GetResult)
    (hT : token ≠ "") :
    (Update.mk token [""]).Valid = true ∧
    (makeUpdate net ⟨token, [""]⟩).2 =
      ["https://www.duckdns.org/update?domains=&token=" ++ token ++ "&ip="] := by
  have hv : (Update.mk token [""]).Valid = true := valid_of_parts hT (by simp)
  refine ⟨hv, ?_⟩
  rw [makeUpdate_urls net _ hv]
  simp only [List.map, updateURL]
  rw [show ("https://www.duckdns.org/update?domains=" ++ "" ++ "&token=" :
    String) = "https://www.duckdns.org/update?domains=&token=" from by decide]

/-- Witness for C9 at the concrete token "t". -/
theorem empty_name_still_valid_witness :
    (Update.mk "t" [""]).Valid = true ∧
    (makeUpdate (fun _ => GetResult.body "OK") ⟨"t", [""]⟩).2 =
      ["https://www.duckdns.org/update?domains=&token=" ++ "t" ++ "&ip="] :=
  empty_name_still_valid "t" (fun _ => GetResult.body "OK") (by decide)

/-- C10: splitting DUCK_NAMES on the space character preserves empty
fields: for a non-empty value with a leading, trailing, or doubled space,
the environment reader puts an empty-string name into the list, and (when
the resulting request is valid) the dispatcher gives every name — each
empty-string entry included — its own update attempt, the empty entries
with URL updateURL token "". -/
theorem split_preserves_empty_fields (s : String) (u : Update) (e : EnvVars)
    (net : Nat → GetResult) (hs : s ≠ "")
    (hsp : s.data.head? = some ' ' ∨ s.data.getLast? = some ' ' ∨
      ∃ pre suf, s.data = pre ++ ' ' :: ' ' :: suf)
    (hN : u.Names = []) (hE : e.DUCK_NAMES = s)
    (hT : (getConfigEnv e u).Token ≠ "") :
    "" ∈ (getConfigEnv e u).Names ∧
    (makeUpdate net (getConfigEnv e u)).2 =
      (getConfigEnv e u).Names.map (updateURL (getConfigEnv e u).Token) ∧
    updateURL (getConfigEnv e u).Token "" ∈
      (makeUpdate net (getConfigEnv e u)).2 := by
  have hE2 : e.DUCK_NAMES ≠ "" := by rw [hE]; exact hs
  have hNames : (getConfigEnv e u).Names = goSplitSpace e.DUCK_NAMES :=
    getConfigEnv_Names_of_empty e u hN hE2
  have hmem : "" ∈ (getConfigEnv e u).Names := by
    rw [hNames, hE]
    exact empty_string_mem_goSplitSpace s hsp
  have hv : (getConfigEnv e u).Valid = true :=
    valid_of_parts hT (List.ne_nil_of_mem hmem)
  have hurls := makeUpdate_urls net _ hv
  exact ⟨hmem, hurls, by rw [hurls]; exact List.mem_map_of_mem _ hmem⟩

/-- Witness for C10 at DUCK_NAMES = "a  b" (a doubled space). -/
theorem split_preserves_empty_fields_witness :
    "" ∈ (getConfigEnv ⟨"et", "a  b"⟩ ⟨"", []⟩).Names ∧
    (makeUpdate (fun _ => GetResult.body "OK")
      (getConfigEnv ⟨"et", "a  b"⟩ ⟨"", []⟩)).2 =
      (getConfigEnv ⟨"et", "a  b"⟩ ⟨"", []⟩).Names.map
        (updateURL (getConfigEnv ⟨"et", "a  b"⟩ ⟨"", []⟩).Token) ∧
    updateURL (getConfigEnv ⟨"et", "a  b"⟩ ⟨"", []⟩).Token "" ∈
      (makeUpdate (fun _ => GetResult.body "OK")
        (getConfigEnv ⟨"et", "a  b"⟩ ⟨"", []⟩)).2 :=
  split_preserves_empty_fields "a  b" ⟨"", []⟩ ⟨"et", "a  b"⟩
    (fun _ => GetResult.body "OK") (by decide)
    (Or.inr (Or.inr ⟨['a'], ['b'], by decide⟩)) rfl rfl (by decide)
